import Mathlib

/-!
Verification of the double-buffered framebuffer test program
(`src/main.rs`).  Pixel buffers are shallowly embedded as total byte
maps `Nat → Nat`; every raster routine of the source is translated as a
composition of the single bounds-checked pixel-write primitive
(`put_rgb`), with the source's loop nests expressed through the
`paintRow` / `paintSub` recursors (outer loop over rows, inner loop
over columns, writes applied in source order).  Machine integers are
`Nat` (usize, with `-` the saturating subtraction the source obtains
from `saturating_sub`; places where the source performs a raw `usize`
subtraction are recorded in comments and guarded by size hypotheses in
the theorems) and `Int` (isize).  Fallible operations return
`Except String` / `Option`; a Rust panic (out-of-bounds index) is
modelled as `none`.
-/

namespace ScreenTest

/-- A pixel buffer: byte index to byte value.  The source's `&mut [u8]`
staging buffer and the mapped dumb buffer are both byte slices; the
`assert!` bounds check of `put_rgb` aborts the program rather than
clipping, so in-bounds behaviour is the only behaviour and the buffer
is modelled as a total map. -/
abbrev Buf := Nat → Nat

/-- `put_rgb` (main.rs:227): writes one XRGB8888 pixel at `(x, y)`;
byte layout at `offset = y * stride + x * 4` is `b, g, r, 0xff`. -/
def put_rgb (stride x y r g b : Nat) (buf : Buf) : Buf := fun i =>
  if i = y * stride + 4 * x then b
  else if i = y * stride + 4 * x + 1 then g
  else if i = y * stride + 4 * x + 2 then r
  else if i = y * stride + 4 * x + 3 then 255
  else buf i

/-- One row of a rectangular raster loop: `for xx in 0..n` writing pixel
`(x0 + xx, y)` with colour `f xx = (r, g, b)`; later iterations applied
outermost. -/
def paintRow (stride x0 y : Nat) (f : Nat → Nat × Nat × Nat) : Nat → Buf → Buf
  | 0, buf => buf
  | n + 1, buf =>
    put_rgb stride (x0 + n) y (f n).1 (f n).2.1 (f n).2.2 (paintRow stride x0 y f n buf)

/-- A rectangular raster loop nest: `for yy in 0..h0 { for xx in 0..w0 }`
writing pixel `(x0 + xx, y0 + yy)` with colour `f xx yy`; rows in
increasing order, matching the y-outer/x-inner loops of the source. -/
def paintSub (stride x0 y0 : Nat) (f : Nat → Nat → Nat × Nat × Nat) (w0 : Nat) :
    Nat → Buf → Buf
  | 0, buf => buf
  | n + 1, buf =>
    paintRow stride x0 (y0 + n) (fun xx => f xx n) w0 (paintSub stride x0 y0 f w0 n buf)

/-- `fill_rgb` (main.rs:238): paints the whole `w × h` rectangle one colour. -/
def fill_rgb (stride w h r g b : Nat) : Buf → Buf :=
  paintSub stride 0 0 (fun _ _ => (r, g, b)) w h

inductive GradMode
  | Luma
  | Red
  | Green
  | Blue
deriving DecidableEq

inductive PatternKind
  | Solid
  | Gradient
  | Checker
  | Motion
  | Patches
  | Viewing
deriving DecidableEq

/-- `SOLIDS` (main.rs:218): the fixed six-entry palette, as `(r, g, b)`. -/
def SOLIDS : List (Nat × Nat × Nat) :=
  [(255, 0, 0), (0, 255, 0), (0, 0, 255), (255, 255, 255), (128, 128, 128), (0, 0, 0)]

/-- The gradient scaling expression `(t * 255) / (len - 1).max(1)` of
`draw_gradient` (main.rs:260 and 277). -/
def gradVal (len t : Nat) : Nat := t * 255 / max (len - 1) 1

/-- The channel selector of the non-luma arm of `draw_gradient`
(main.rs:266).  The `Luma` case is the source's `unreachable!()` arm:
only the `Red`/`Green`/`Blue` modes reach this match. -/
def gradChannel (mode : GradMode) : Nat :=
  match mode with
  | .Red => 0
  | .Green => 1
  | .Blue => 2
  | .Luma => 0

/-- `draw_gradient` (main.rs:246): per-pixel value
`((t * 255) / (len - 1).max(1)) as u8` (the `u8` cast is `% 256`),
placed on all three channels (luma) or one isolated channel. -/
def draw_gradient (stride w h : Nat) (mode : GradMode) (vertical : Bool) : Buf → Buf :=
  match mode with
  | .Luma =>
    paintSub stride 0 0
      (fun x y =>
        let len := if vertical then h else w
        let t := if vertical then y else x
        let v := t * 255 / max (len - 1) 1 % 256
        (v, v, v)) w h
  | m =>
    let channel := gradChannel m
    paintSub stride 0 0
      (fun x y =>
        let len := if vertical then h else w
        let t := if vertical then y else x
        let v := t * 255 / max (len - 1) 1 % 256
        (if channel = 0 then v else 0,
         if channel = 1 then v else 0,
         if channel = 2 then v else 0)) w h

/-- `draw_checkerboard` (main.rs:294): cell colour from
`((x / cell) ^ (y / cell)) & 1`, white when the xor is even. -/
def draw_checkerboard (stride w h cell : Nat) : Buf → Buf :=
  let cell := max cell 1
  paintSub stride 0 0
    (fun x y =>
      let byy := y / cell &&& 1
      let bxx := x / cell &&& 1
      let v := if bxx ^^^ byy = 0 then 255 else 0
      (v, v, v)) w h

/-- `draw_motion_bar` (main.rs:308): mid-gray background, then a bright
bar over columns `x_pos.min(w-1) .. (x_pos + bar_w).min(w)` (both
clamps are saturating in the source). -/
def draw_motion_bar (stride w h x_pos bar_w : Nat) (buf : Buf) : Buf :=
  let buf := fill_rgb stride w h 128 128 128 buf
  let x0 := min x_pos (w - 1)
  let x1 := min (x_pos + bar_w) w
  paintSub stride x0 0 (fun _ _ => (230, 230, 230)) (x1 - x0) h buf

/-- The first loop of `draw_patches` (main.rs:327): near-black patches,
step `i` (0-based) painted with value `i + 1` over rows
`i * color_area .. (i + 1) * color_area` and columns
`0 .. colors_area.min(w)`. -/
def patchesTop (stride ca caW : Nat) : Nat → Buf → Buf
  | 0, buf => buf
  | n + 1, buf =>
    paintSub stride 0 (n * ca) (fun _ _ => (n + 1, n + 1, n + 1)) caW ca
      (patchesTop stride ca caW n buf)

/-- The second loop of `draw_patches` (main.rs:337): near-white patches,
step `i` painted with value `250 + i` over rows
`(h - colors_area) + i * color_area .. ((i + 1) + color_area).min(h - 1)`
and columns `(w - colors_area) .. w` (all subtractions saturating in the
source). -/
def patchesBottom (stride ca caA w h : Nat) : Nat → Buf → Buf
  | 0, buf => buf
  | n + 1, buf =>
    paintSub stride (w - caA) (h - caA + n * ca)
      (fun _ _ => (250 + n, 250 + n, 250 + n))
      (w - (w - caA))
      (min (n + 1 + ca) (h - 1) - (h - caA + n * ca))
      (patchesBottom stride ca caA w h n buf)

/-- `draw_patches` (main.rs:321). -/
def draw_patches (stride w h : Nat) (buf : Buf) : Buf :=
  let buf := fill_rgb stride w h 32 32 32 buf
  let colors_area := max (min w h / 5) 64
  let color_area := colors_area / 5
  let buf := patchesTop stride color_area (min colors_area w) 5 buf
  patchesBottom stride color_area colors_area w h 5 buf

/-- `clamp_rect` (main.rs:348). -/
def clamp_rect (x y : Int) (w h ww hh : Nat) : Nat × Nat × Nat × Nat :=
  let x0 := (max x 0).toNat
  let y0 := (max y 0).toNat
  let rw := min w (ww - x0)
  let rh := min h (hh - y0)
  let xr := if x0 ≥ ww then ((0 : Nat), (0 : Nat)) else (x0, rw)
  let yr := if y0 ≥ hh then ((0 : Nat), (0 : Nat)) else (y0, rh)
  (xr.1, yr.1, xr.2, yr.2)

/-- `fill_rect` (main.rs:370): clamps, then paints rows
`y0 .. y0 + rh` by columns `x0 .. x0 + rw`. -/
def fill_rect (stride ww hh : Nat) (x y : Int) (w h r g b : Nat) (buf : Buf) : Buf :=
  let c := clamp_rect x y w h ww hh
  paintSub stride c.1 c.2.1 (fun _ _ => (r, g, b)) c.2.2.1 c.2.2.2 buf

/-- `draw_rect_outline` (main.rs:390): four `fill_rect`s, with `isize`
arithmetic for the bottom and right edges. -/
def draw_rect_outline (stride ww hh : Nat) (x y : Int) (w h t r g b : Nat)
    (buf : Buf) : Buf :=
  let buf := fill_rect stride ww hh x y w t r g b buf
  let buf := fill_rect stride ww hh x (y + ((h : Int) - (t : Int))) w t r g b buf
  let buf := fill_rect stride ww hh x y t h r g b buf
  fill_rect stride ww hh (x + ((w : Int) - (t : Int))) y t h r g b buf

/-- `draw_crosshair` (main.rs:433): one full-width row at `h / 2`, then
one full-height column at `w / 2`. -/
def draw_crosshair (stride w h r g b : Nat) (buf : Buf) : Buf :=
  let cx := w / 2
  let cy := h / 2
  let buf := paintSub stride 0 cy (fun _ _ => (r, g, b)) w 1 buf
  paintSub stride cx 0 (fun _ _ => (r, g, b)) 1 h buf

/-- `draw_viewing_card` (main.rs:445).  The corner-box x/y origins
`w - box_w - t * 2` and `h - box_h - t * 2` are raw `usize`
subtractions in the source (panic on underflow); here they saturate,
so theorems about this renderer carry the `viewingFits` size bound
under which no underflow occurs. -/
def draw_viewing_card (stride w h : Nat) (buf : Buf) : Buf :=
  let buf := fill_rgb stride w h 0 0 0 buf
  let t := max (min w h / 200) 2
  let buf := draw_rect_outline stride w h 0 0 w h t 255 255 255 buf
  let box_w := max (w / 5) 80
  let box_h := max (h / 5) 80
  let buf := fill_rect stride w h ((t : Int) * 2) ((t : Int) * 2) box_w box_h 255 255 255 buf
  let cell := max (box_w / 12) 2
  let buf := paintSub stride (w - box_w - t * 2) (t * 2)
    (fun xx yy =>
      let v := if (xx / cell + yy / cell) &&& 1 = 0 then 255 else 0
      (v, v, v)) box_w box_h buf
  let seg := max (box_w / 3) 8
  let buf := fill_rect stride w h ((t : Int) * 2) ((h - box_h - t * 2 : Nat) : Int)
    seg box_h 255 0 0 buf
  let buf := fill_rect stride w h ((t * 2 + seg : Nat) : Int) ((h - box_h - t * 2 : Nat) : Int)
    seg box_h 0 255 0 buf
  let buf := fill_rect stride w h ((t * 2 + 2 * seg : Nat) : Int) ((h - box_h - t * 2 : Nat) : Int)
    seg box_h 0 0 255 buf
  let buf := paintSub stride (w - box_w - t * 2) (h - box_h - t * 2)
    (fun xx yy =>
      let v := if (xx + yy) / 8 % 2 = 0 then 220 else 30
      (v, v, v)) box_w box_h buf
  draw_crosshair stride w h 255 255 0 buf

/-- Display sizes under which `draw_viewing_card`'s raw `usize`
subtractions cannot underflow, making the saturating model exact. -/
def viewingFits (w h : Nat) : Prop :=
  max (w / 5) 80 + 2 * max (min w h / 200) 2 ≤ w ∧
  max (h / 5) 80 + 2 * max (min w h / 200) 2 ≤ h

instance (w h : Nat) : Decidable (viewingFits w h) := by
  unfold viewingFits; infer_instance

/-- `Frame` (main.rs:37): one hardware-backed pixel buffer.  `buf` is the
contents of the dumb buffer (the opaque `db` / `fb` presentation handles
carry no modelled behaviour). -/
structure Frame where
  buf : Buf
  disp_h : Nat
  stride : Nat

/-- `Surface` (main.rs:45): the double-buffered presentation unit.  The
two-element frame array is the pair `frames`; `front` is the `usize`
index of the on-screen frame. -/
structure Surface where
  disp_w : Nat
  disp_h : Nat
  frames : Frame × Frame
  front : Nat
  is_flipping : Bool

/-- Array indexing `self.frames[i]` for the two-element frame array
(in the source `i` is always `self.front` or `self.back()`, both in
`{0, 1}`). -/
def frameAt (s : Surface) (i : Nat) : Frame :=
  if i = 0 then s.frames.1 else s.frames.2

/-- Updating `self.frames[i]`. -/
def setFrame (s : Surface) (i : Nat) (f : Frame) : Surface :=
  if i = 0 then { s with frames := (f, s.frames.2) }
  else { s with frames := (s.frames.1, f) }

/-- `Surface::back` (main.rs:131): `1 - self.front` in `usize`. -/
def Surface.back (s : Surface) : Nat := 1 - s.front

/-- `Surface::stride` (main.rs:136): `self.frames[0].stride`. -/
def Surface.stride (s : Surface) : Nat := (frameAt s 0).stride

/-- One row of `Surface::write_to_back`'s copy loop (main.rs:149):
bytes `y * stride .. y * stride + stride` taken from `src`. -/
def copyRow (stride y : Nat) (src dst : Buf) : Buf := fun i =>
  if y * stride ≤ i ∧ i < y * stride + stride then src i else dst i

/-- The full copy loop `for y in 0..h` of `Surface::write_to_back`. -/
def copyRows (stride : Nat) (src : Buf) : Nat → Buf → Buf
  | 0, dst => dst
  | y + 1, dst => copyRow stride y src (copyRows stride src y dst)

/-- `Surface::write_to_back` (main.rs:140): checks
`src.len() >= frame.stride * frame.disp_h` on the back frame, then
copies `disp_h` rows of `stride` bytes each into the mapped back frame.
`srcLen` is the length of the staging slice. -/
def write_to_back (s : Surface) (srcLen : Nat) (src : Buf) : Except String Surface :=
  let frame := frameAt s s.back
  if srcLen ≥ frame.stride * frame.disp_h then
    .ok (setFrame s s.back { frame with buf := copyRows frame.stride src frame.disp_h frame.buf })
  else .error "source buffer too small"

/-- `Surface::flip` (main.rs:160): rejected while a flip is pending,
otherwise submits the back frame (the `page_flip` ioctl carries no
modelled failure) and marks pending. -/
def flip (s : Surface) : Except String Surface :=
  if s.is_flipping then .error "flip already pending"
  else .ok { s with is_flipping := true }

/-- The DRM events delivered by `receive_events` (main.rs:174): the
source matches `ctrl::Event::PageFlip(_)` and ignores everything else. -/
inductive DrmEvent
  | pageFlip
  | other
deriving DecidableEq

/-- `Surface::handle_drm_events` (main.rs:173): walks the drained event
list; on the first page-flip completion while a flip is pending it swaps
front/back, clears pending and returns `true`; otherwise returns
`false`. -/
def handle_drm_events : List DrmEvent → Surface → Surface × Bool
  | [], s => (s, false)
  | e :: rest, s =>
    match e with
    | .pageFlip =>
      if s.is_flipping then ({ s with front := 1 - s.front, is_flipping := false }, true)
      else handle_drm_events rest s
    | .other => handle_drm_events rest s

/-- `Step` (main.rs:554). -/
structure Step where
  pat : PatternKind
  solid_idx : Nat
  grad_mode : GradMode
  grad_vertical : Bool
  checker_cell : Nat
  motion_speed : Nat
deriving DecidableEq

/-- `Step::default()`: `Solid`, `Luma`, zeros and `false`
(the `#[default]` variants of the two enums). -/
def stepDefault : Step :=
  { pat := .Solid, solid_idx := 0, grad_mode := .Luma, grad_vertical := false,
    checker_cell := 0, motion_speed := 0 }

/-- `AppState::create_script` (main.rs:600): one `Step` per `SOLIDS`
entry, two luma gradients (horizontal then vertical), three isolated
channel gradients, checker cells 16/8/4/2, motion speeds 4/8/16, then
`Patches` and `Viewing`. -/
def create_script : List Step :=
  ((List.range SOLIDS.length).map fun i => { stepDefault with pat := .Solid, solid_idx := i })
  ++ [{ stepDefault with pat := .Gradient, grad_mode := .Luma, grad_vertical := false },
      { stepDefault with pat := .Gradient, grad_mode := .Luma, grad_vertical := true }]
  ++ ([GradMode.Red, GradMode.Green, GradMode.Blue].map fun gm =>
      { stepDefault with pat := .Gradient, grad_mode := gm, grad_vertical := false })
  ++ ([16, 8, 4, 2].map fun c => { stepDefault with pat := .Checker, checker_cell := c })
  ++ ([4, 8, 16].map fun sp => { stepDefault with pat := .Motion, motion_speed := sp })
  ++ [{ stepDefault with pat := .Patches }, { stepDefault with pat := .Viewing }]

/-- `AppState` (main.rs:564). -/
structure AppState where
  pattern : PatternKind
  solid_idx : Nat
  grad_mode : GradMode
  grad_vertical : Bool
  checker_cell : Nat
  motion_x : Int
  motion_speed : Nat
  motion_dir : Int
  script : List Step
  script_idx : Nat
deriving DecidableEq

/-- `AppState::current_step` (main.rs:663): `self.script[self.script_idx]`;
the out-of-bounds panic is modelled as `none`. -/
def current_step (st : AppState) : Option Step := st.script.get? st.script_idx

/-- `AppState::apply_current_step` (main.rs:667): copies the active
step's parameters into the working fields and resets the motion state. -/
def apply_current_step (st : AppState) : Option AppState :=
  (current_step st).map fun step =>
    { st with
      pattern := step.pat
      solid_idx := step.solid_idx
      grad_mode := step.grad_mode
      grad_vertical := step.grad_vertical
      checker_cell := step.checker_cell
      motion_speed := step.motion_speed
      motion_x := 0
      motion_dir := 1 }

/-- `AppState::next_step` (main.rs:680): increments the cursor, returns
`true` ("quit") only when the new cursor exceeds `script.len()`
(a strict `>` comparison), otherwise re-derives parameters.  `none` is
the panic of `apply_current_step` when the new cursor is out of
bounds. -/
def next_step (st : AppState) : Option (Bool × AppState) :=
  let st2 := { st with script_idx := st.script_idx + 1 }
  if st2.script_idx > st2.script.length then some (true, st2)
  else (apply_current_step st2).map fun st3 => (false, st3)

/-- `AppState::previous_step` (main.rs:692):
`(idx + len - 1) % len`, then re-derives parameters. -/
def previous_step (st : AppState) : Option AppState :=
  apply_current_step
    { st with script_idx := (st.script_idx + st.script.length - 1) % st.script.length }

/-- The `KEY_M` speed cycle of the main loop (main.rs:761). -/
def cycleSpeed (n : Nat) : Nat :=
  match n with
  | 1 => 2
  | 2 => 4
  | 4 => 8
  | 8 => 16
  | 16 => 32
  | _ => 1

/-- The motion-bar position update of the main loop's `Motion` arm
(main.rs:830): advance by `dir * speed` in `isize`, then wrap to
`disp_w - 1` when negative and to `0` when at or past `disp_w`. -/
def motionTick (w speed : Nat) (dir x : Int) : Int :=
  let nx := x + dir * (speed : Int)
  if nx < 0 then (w : Int) - 1
  else if (w : Int) ≤ nx then 0
  else nx

/-- Iterating the `Motion` redraw tick of the main loop with the
C6 parameters: width 320, speed 8, direction `+1`, starting position 0. -/
def motionIterN : Nat → Int
  | 0 => 0
  | n + 1 => motionTick 320 8 1 (motionIterN n)

/-- The `match state.pattern` render dispatch of the main loop
(main.rs:795-854), rendering into the staging buffer; the `Motion` arm
also mutates `motion_x`.  `SOLIDS[state.solid_idx]` is modelled with a
default for the out-of-bounds case (the source would panic there; the
index is always `< SOLIDS.len()`). -/
def renderPattern (app : AppState) (stride w h : Nat) (stage : Buf) : AppState × Buf :=
  match app.pattern with
  | .Solid =>
    let c := SOLIDS.getD app.solid_idx (0, 0, 0)
    (app, fill_rgb stride w h c.1 c.2.1 c.2.2 stage)
  | .Gradient => (app, draw_gradient stride w h app.grad_mode app.grad_vertical stage)
  | .Checker => (app, draw_checkerboard stride w h app.checker_cell stage)
  | .Motion =>
    let bar_w := max (w / 40) 8
    let mx := motionTick w app.motion_speed app.motion_dir app.motion_x
    ({ app with motion_x := mx }, draw_motion_bar stride w h mx.toNat bar_w stage)
  | .Patches => (app, draw_patches stride w h stage)
  | .Viewing => (app, draw_viewing_card stride w h stage)

/-- The key-press codes distinguished by the main loop's match
(main.rs:747): quit (`Q`/`ESC`), advance (`RIGHT`/`SPACE`), retreat
(`LEFT`), axis flip (`V`), speed cycle (`M`), pause (`P`) and any other
key (the `_ => {}` arm, which still marks "redraw needed"). -/
inductive KeyPress
  | quitKey
  | rightKey
  | leftKey
  | vKey
  | mKey
  | pKey
  | otherKey
deriving DecidableEq

/-- The keyboard drain of one main-loop iteration (main.rs:744-779):
processes each key press in order; returns
`(quit, state, pause, need_redraw)`, or `none` when `next_step`
panics.  On quit (and on `next_step` signalling end) the loop `break`s
before the trailing `need_redraw = true`. -/
def processKeys : List KeyPress → AppState → Bool → Bool → Option (Bool × AppState × Bool × Bool)
  | [], app, pause, need => some (false, app, pause, need)
  | k :: rest, app, pause, need =>
    match k with
    | .quitKey => some (true, app, pause, need)
    | .rightKey =>
      match next_step app with
      | none => none
      | some (true, app2) => some (true, app2, pause, need)
      | some (false, app2) => processKeys rest app2 pause true
    | .leftKey =>
      match previous_step app with
      | none => none
      | some app2 => processKeys rest app2 pause true
    | .vKey => processKeys rest { app with grad_vertical := !app.grad_vertical } pause true
    | .mKey => processKeys rest { app with motion_speed := cycleSpeed app.motion_speed } pause true
    | .pKey => processKeys rest app (!pause) true
    | .otherKey => processKeys rest app pause true

/-- The frame-submission tail of one main-loop iteration
(main.rs:857-863): only when a render happened and no flip is pending
does the loop copy the staging buffer to the back frame, request a
flip and clear "redraw needed"; otherwise surface and flag are left
as they are. -/
def submitPhase (shouldDraw : Bool) (stageLen : Nat) (stage : Buf) (s : Surface)
    (need : Bool) : Except String (Surface × Bool) :=
  if shouldDraw && !s.is_flipping then
    match write_to_back s stageLen stage with
    | .error e => .error e
    | .ok s2 =>
      match flip s2 with
      | .error e => .error e
      | .ok s3 => .ok (s3, false)
  else .ok (s, need)

/-- The per-iteration inputs of the main loop's `poll`: display
readiness with the drained DRM events, and the drained key presses
(empty when the keyboard was not ready). -/
structure IterInput where
  drm_ready : Bool
  drmEvents : List DrmEvent
  keys : List KeyPress

/-- The mutable state threaded through the main loop (main.rs:698-714). -/
structure LoopState where
  surface : Surface
  stageLen : Nat
  stage : Buf
  app : AppState
  need_redraw : Bool
  pause : Bool

inductive IterResult
  | quit
  | cont (ls : LoopState)

/-- `matches!(state.pattern, PatternKind::Motion)` (main.rs:790). -/
def isMotion : PatternKind → Bool
  | .Motion => true
  | _ => false

/-- One iteration of the main loop (main.rs:716-866): absorb DRM events
when the display source is ready, drain key presses, honour pause,
render when "redraw needed" or the pattern is time-varying, and submit
through `submitPhase`.  `none` is a panic (out-of-bounds script index),
`some (.error e)` is the `?`-propagation of a surface error. -/
def loopIter (inp : IterInput) (ls : LoopState) : Option (Except String IterResult) :=
  let s := if inp.drm_ready then (handle_drm_events inp.drmEvents ls.surface).1 else ls.surface
  match processKeys inp.keys ls.app ls.pause ls.need_redraw with
  | none => none
  | some (true, _, _, _) => some (.ok .quit)
  | some (false, app, pause, need) =>
    if pause then
      some (.ok (.cont { surface := s, stageLen := ls.stageLen, stage := ls.stage,
                         app := app, need_redraw := need, pause := pause }))
    else
      let shouldDraw := need || isMotion app.pattern
      let r := if shouldDraw then renderPattern app s.stride s.disp_w s.disp_h ls.stage
               else (app, ls.stage)
      match submitPhase shouldDraw ls.stageLen r.2 s need with
      | .error e => some (.error e)
      | .ok (s3, need2) =>
        some (.ok (.cont { surface := s3, stageLen := ls.stageLen, stage := r.2,
                           app := r.1, need_redraw := need2, pause := pause }))

/-- Both frames of a surface share the surface's geometry, as
established by `Surface::open_default` (main.rs:97-127), which builds
both frames from the same mode. -/
def wellFormed (s : Surface) : Prop :=
  s.frames.1.stride = s.stride ∧ s.frames.2.stride = s.stride ∧
  s.frames.1.disp_h = s.disp_h ∧ s.frames.2.disp_h = s.disp_h

/-- The byte of an XRGB8888 pixel write at offset `k`: `b, g, r, 0xff`. -/
def rgbByte (k : Nat) (c : Nat × Nat × Nat) : Nat :=
  if k = 0 then c.2.2 else if k = 1 then c.2.1 else if k = 2 then c.1 else 255

/-- The byte offset, within a pixel, of the channel the gradient ramp is
applied to: the green byte for luminance (all three carry the same
value), and the isolated channel's byte otherwise. -/
def gradByteOff (mode : GradMode) : Nat :=
  match mode with
  | .Luma => 1
  | .Red => 2
  | .Green => 1
  | .Blue => 0

/-- An all-zero byte buffer (sample input). -/
def zeroBuf : Buf := fun _ => 0

/-- An all-0xFF byte buffer (sample staging contents). -/
def ffBuf : Buf := fun _ => 255

/-- A sample 1×2 frame with stride 4. -/
def frameW : Frame := { buf := zeroBuf, disp_h := 2, stride := 4 }

/-- A sample idle surface built from two copies of `frameW`. -/
def surfW : Surface :=
  { disp_w := 1, disp_h := 2, frames := (frameW, frameW), front := 0, is_flipping := false }

/-- The surface produced by writing `ffBuf` into `surfW`'s back frame. -/
def surfW2 : Surface :=
  setFrame surfW (Surface.back surfW)
    { frameAt surfW (Surface.back surfW) with
      buf := copyRows 4 ffBuf 2 (frameAt surfW (Surface.back surfW)).buf }

/-- A sample sequencer state on a one-step script. -/
def appW : AppState :=
  { pattern := .Solid, solid_idx := 0, grad_mode := .Luma, grad_vertical := false,
    checker_cell := 8, motion_x := 0, motion_speed := 8, motion_dir := 1,
    script := [stepDefault], script_idx := 0 }

/-- The sequencer state sitting on the last step of the real script. -/
def appAtLast : AppState :=
  { appW with script := create_script, script_idx := 19 }

/-- The sequencer state sitting on the first step of the real script. -/
def appFirst : AppState :=
  { appW with script := create_script, script_idx := 0 }

/-- A sample main-loop state over `surfW` with a correctly sized staging
buffer (`disp_h * stride = 8`). -/
def lsW : LoopState :=
  { surface := surfW, stageLen := 8, stage := zeroBuf, app := appW,
    need_redraw := false, pause := false }

/-- A sample quiet main-loop iteration input. -/
def inpW : IterInput := { drm_ready := false, drmEvents := [], keys := [] }

lemma put_rgb_eqAt (stride x y r g b : Nat) (b1 b2 : Buf) (i : Nat) (h : b1 i = b2 i) :
    put_rgb stride x y r g b b1 i = put_rgb stride x y r g b b2 i := by
  unfold put_rgb
  split_ifs <;> first | rfl | exact h

lemma put_rgb_written (stride x y r g b k : Nat) (hk : k < 4) (b1 b2 : Buf) :
    put_rgb stride x y r g b b1 (y * stride + 4 * x + k)
      = put_rgb stride x y r g b b2 (y * stride + 4 * x + k) := by
  unfold put_rgb
  split_ifs <;> first | rfl | omega

lemma put_rgb_self (stride x y r g b k : Nat) (hk : k < 4) (buf : Buf) :
    put_rgb stride x y r g b buf (y * stride + 4 * x + k) = rgbByte k (r, g, b) := by
  unfold put_rgb rgbByte
  split_ifs <;> first | rfl | omega

lemma offDecomp (stride a b a2 b2 : Nat) (hb : b < stride) (hb2 : b2 < stride)
    (h : a * stride + b = a2 * stride + b2) : a = a2 ∧ b = b2 := by
  have hs : 0 < stride := by omega
  have ha : a = a2 := by
    have h1 : (a * stride + b) / stride = a := by
      rw [Nat.mul_comm, Nat.mul_add_div hs, Nat.div_eq_of_lt hb, Nat.add_zero]
    have h2 : (a2 * stride + b2) / stride = a2 := by
      rw [Nat.mul_comm, Nat.mul_add_div hs, Nat.div_eq_of_lt hb2, Nat.add_zero]
    rw [← h1, ← h2, h]
  subst ha
  exact ⟨rfl, by omega⟩

lemma put_rgb_untouched (stride x y x2 y2 r g b k : Nat) (buf : Buf)
    (hk : k < 4) (hxs : 4 * x + 3 < stride) (hx2 : 4 * x2 + k < stride)
    (hne : y = y2 → x ≠ x2) :
    put_rgb stride x y r g b buf (y2 * stride + 4 * x2 + k)
      = buf (y2 * stride + 4 * x2 + k) := by
  have key : ∀ c : Nat, c < 4 → y2 * stride + 4 * x2 + k = y * stride + 4 * x + c → False := by
    intro c hc heq
    have h2 : y2 * stride + (4 * x2 + k) = y * stride + (4 * x + c) := by omega
    have hd := offDecomp stride y2 (4 * x2 + k) y (4 * x + c) hx2 (by omega) h2
    exact hne hd.1.symm (by omega)
  unfold put_rgb
  split_ifs with h1 h2 h3 h4
  · exact (key 0 (by omega) (by omega)).elim
  · exact (key 1 (by omega) (by omega)).elim
  · exact (key 2 (by omega) (by omega)).elim
  · exact (key 3 (by omega) (by omega)).elim
  · rfl

lemma paintRow_eqAt (stride x0 y : Nat) (f : Nat → Nat × Nat × Nat) (n : Nat)
    (b1 b2 : Buf) (i : Nat) (h : b1 i = b2 i) :
    paintRow stride x0 y f n b1 i = paintRow stride x0 y f n b2 i := by
  induction n with
  | zero => exact h
  | succ n ih => exact put_rgb_eqAt _ _ _ _ _ _ _ _ _ ih

lemma paintRow_covers (stride x0 y : Nat) (f : Nat → Nat × Nat × Nat) (n xx k : Nat)
    (hx : xx < n) (hk : k < 4) (b1 b2 : Buf) :
    paintRow stride x0 y f n b1 (y * stride + 4 * (x0 + xx) + k)
      = paintRow stride x0 y f n b2 (y * stride + 4 * (x0 + xx) + k) := by
  induction n with
  | zero => omega
  | succ n ih =>
    unfold paintRow
    by_cases hxx : xx = n
    · subst hxx
      exact put_rgb_written _ _ _ _ _ _ _ hk _ _
    · exact put_rgb_eqAt _ _ _ _ _ _ _ _ _ (ih (by omega))

lemma paintRow_notouch (stride x0 y y2 x2 k : Nat) (f : Nat → Nat × Nat × Nat) (n : Nat)
    (buf : Buf) (hk : k < 4) (hrow : 4 * (x0 + n) ≤ stride) (hx2 : 4 * x2 + k < stride)
    (hy : y2 ≠ y) :
    paintRow stride x0 y f n buf (y2 * stride + 4 * x2 + k)
      = buf (y2 * stride + 4 * x2 + k) := by
  induction n with
  | zero => rfl
  | succ n ih =>
    unfold paintRow
    rw [put_rgb_untouched _ _ _ _ _ _ _ _ _ _ hk (by omega) hx2
      (fun hyy => absurd hyy.symm hy)]
    exact ih (by omega)

lemma paintRow_val (stride y : Nat) (f : Nat → Nat × Nat × Nat) (n x k : Nat)
    (hx : x < n) (hk : k < 4) (hstride : 4 * n ≤ stride) (buf : Buf) :
    paintRow stride 0 y f n buf (y * stride + 4 * x + k) = rgbByte k (f x) := by
  induction n with
  | zero => omega
  | succ n ih =>
    unfold paintRow
    by_cases hxx : x = n
    · subst hxx
      have h0 : 0 + x = x := Nat.zero_add x
      rw [h0]
      exact put_rgb_self _ _ _ _ _ _ _ hk _
    · rw [put_rgb_untouched _ _ _ _ _ _ _ _ _ _ hk (by omega) (by omega)
        (fun _ => by omega)]
      exact ih (by omega) (by omega)

lemma paintSub_eqAt (stride x0 y0 : Nat) (f : Nat → Nat → Nat × Nat × Nat) (w0 h0 : Nat)
    (b1 b2 : Buf) (i : Nat) (h : b1 i = b2 i) :
    paintSub stride x0 y0 f w0 h0 b1 i = paintSub stride x0 y0 f w0 h0 b2 i := by
  induction h0 with
  | zero => exact h
  | succ n ih => exact paintRow_eqAt _ _ _ _ _ _ _ _ ih

lemma paintSub_covers (stride x0 y0 : Nat) (f : Nat → Nat → Nat × Nat × Nat)
    (w0 h0 xx yy k : Nat) (hx : xx < w0) (hy : yy < h0) (hk : k < 4) (b1 b2 : Buf) :
    paintSub stride x0 y0 f w0 h0 b1 ((y0 + yy) * stride + 4 * (x0 + xx) + k)
      = paintSub stride x0 y0 f w0 h0 b2 ((y0 + yy) * stride + 4 * (x0 + xx) + k) := by
  induction h0 with
  | zero => omega
  | succ n ih =>
    unfold paintSub
    by_cases hyy : yy = n
    · subst hyy
      exact paintRow_covers _ _ _ _ _ _ _ hx hk _ _
    · exact paintRow_eqAt _ _ _ _ _ _ _ _ (ih (by omega))

lemma paintSub_covers0 (stride : Nat) (f : Nat → Nat → Nat × Nat × Nat)
    (w h x y k : Nat) (hx : x < w) (hy : y < h) (hk : k < 4) (b1 b2 : Buf) :
    paintSub stride 0 0 f w h b1 (y * stride + 4 * x + k)
      = paintSub stride 0 0 f w h b2 (y * stride + 4 * x + k) := by
  have := paintSub_covers stride 0 0 f w h x y k hx hy hk b1 b2
  simpa using this

lemma paintSub_val (stride : Nat) (f : Nat → Nat → Nat × Nat × Nat) (w h x y k : Nat)
    (hx : x < w) (hy : y < h) (hk : k < 4) (hstride : 4 * w ≤ stride) (buf : Buf) :
    paintSub stride 0 0 f w h buf (y * stride + 4 * x + k) = rgbByte k (f x y) := by
  induction h with
  | zero => omega
  | succ n ih =>
    unfold paintSub
    by_cases hyy : y = n
    · subst hyy
      rw [Nat.zero_add]
      exact paintRow_val _ _ _ _ _ _ hx hk hstride _
    · rw [paintRow_notouch _ _ _ _ _ _ _ _ _ hk (by omega) (by omega) (by omega)]
      exact ih (by omega)

lemma gradVal_le (len t : Nat) (h : t < len) : gradVal len t ≤ 255 := by
  unfold gradVal
  have h1 : t * 255 ≤ (len - 1) * 255 := Nat.mul_le_mul_right 255 (by omega)
  calc t * 255 / max (len - 1) 1 ≤ (len - 1) * 255 / max (len - 1) 1 :=
        Nat.div_le_div_right h1
    _ ≤ 255 := by
        rcases Nat.eq_zero_or_pos (len - 1) with h0 | h0
        · simp [h0]
        · rw [max_eq_left h0, Nat.mul_div_cancel_left 255 h0]

lemma copyRows_apply (stride : Nat) (src : Buf) (h : Nat) (dst : Buf) (i : Nat) :
    copyRows stride src h dst i = if i < h * stride then src i else dst i := by
  induction h with
  | zero => simp [copyRows]
  | succ n ih =>
    unfold copyRows copyRow
    rw [ih]
    have hmul : (n + 1) * stride = n * stride + stride := Nat.succ_mul n stride
    split_ifs <;> first | rfl | omega

lemma handle_eq (evs : List DrmEvent) (s : Surface) :
    handle_drm_events evs s =
      if s.is_flipping ∧ DrmEvent.pageFlip ∈ evs
      then ({ s with front := 1 - s.front, is_flipping := false }, true)
      else (s, false) := by
  induction evs with
  | nil => simp [handle_drm_events]
  | cons e rest ih =>
    cases e with
    | pageFlip =>
      by_cases hf : s.is_flipping
      · simp [handle_drm_events, hf]
      · rw [show handle_drm_events (DrmEvent.pageFlip :: rest) s = handle_drm_events rest s
          from by simp [handle_drm_events, hf]]
        rw [ih]
        simp [hf]
    | other =>
      rw [show handle_drm_events (DrmEvent.other :: rest) s = handle_drm_events rest s
        from rfl]
      rw [ih]
      simp [List.mem_cons]

lemma setFrame_is_flipping (s : Surface) (i : Nat) (f : Frame) :
    (setFrame s i f).is_flipping = s.is_flipping := by
  unfold setFrame
  split <;> rfl

lemma handle_fst_frames (evs : List DrmEvent) (s : Surface) :
    (handle_drm_events evs s).1.frames = s.frames ∧
    (handle_drm_events evs s).1.disp_w = s.disp_w ∧
    (handle_drm_events evs s).1.disp_h = s.disp_h := by
  rw [handle_eq]
  split <;> exact ⟨rfl, rfl, rfl⟩

lemma handle_fst_stride (evs : List DrmEvent) (s : Surface) :
    (handle_drm_events evs s).1.stride = s.stride := by
  unfold Surface.stride frameAt
  rw [(handle_fst_frames evs s).1]

lemma fill_rgb_covers (stride w h r g b x y k : Nat) (hx : x < w) (hy : y < h)
    (hk : k < 4) (b1 b2 : Buf) :
    fill_rgb stride w h r g b b1 (y * stride + 4 * x + k)
      = fill_rgb stride w h r g b b2 (y * stride + 4 * x + k) := by
  unfold fill_rgb
  exact paintSub_covers0 _ _ _ _ _ _ _ hx hy hk _ _

lemma fill_rect_eqAt (stride ww hh : Nat) (x y : Int) (w h r g b : Nat)
    (b1 b2 : Buf) (i : Nat) (hb : b1 i = b2 i) :
    fill_rect stride ww hh x y w h r g b b1 i = fill_rect stride ww hh x y w h r g b b2 i := by
  unfold fill_rect
  exact paintSub_eqAt _ _ _ _ _ _ _ _ _ hb

lemma draw_rect_outline_eqAt (stride ww hh : Nat) (x y : Int) (w h t r g b : Nat)
    (b1 b2 : Buf) (i : Nat) (hb : b1 i = b2 i) :
    draw_rect_outline stride ww hh x y w h t r g b b1 i
      = draw_rect_outline stride ww hh x y w h t r g b b2 i := by
  unfold draw_rect_outline
  exact fill_rect_eqAt _ _ _ _ _ _ _ _ _ _ _ _ _
    (fill_rect_eqAt _ _ _ _ _ _ _ _ _ _ _ _ _
      (fill_rect_eqAt _ _ _ _ _ _ _ _ _ _ _ _ _
        (fill_rect_eqAt _ _ _ _ _ _ _ _ _ _ _ _ _ hb)))

lemma draw_crosshair_eqAt (stride w h r g b : Nat) (b1 b2 : Buf) (i : Nat)
    (hb : b1 i = b2 i) :
    draw_crosshair stride w h r g b b1 i = draw_crosshair stride w h r g b b2 i := by
  unfold draw_crosshair
  exact paintSub_eqAt _ _ _ _ _ _ _ _ _ (paintSub_eqAt _ _ _ _ _ _ _ _ _ hb)

lemma patchesTop_eqAt (stride ca caW n : Nat) (b1 b2 : Buf) (i : Nat)
    (hb : b1 i = b2 i) :
    patchesTop stride ca caW n b1 i = patchesTop stride ca caW n b2 i := by
  induction n with
  | zero => exact hb
  | succ n ih => exact paintSub_eqAt _ _ _ _ _ _ _ _ _ ih

lemma patchesBottom_eqAt (stride ca caA w h n : Nat) (b1 b2 : Buf) (i : Nat)
    (hb : b1 i = b2 i) :
    patchesBottom stride ca caA w h n b1 i = patchesBottom stride ca caA w h n b2 i := by
  induction n with
  | zero => exact hb
  | succ n ih => exact paintSub_eqAt _ _ _ _ _ _ _ _ _ ih

lemma draw_gradient_covers (stride w h : Nat) (mode : GradMode) (vertical : Bool)
    (x y k : Nat) (hx : x < w) (hy : y < h) (hk : k < 4) (b1 b2 : Buf) :
    draw_gradient stride w h mode vertical b1 (y * stride + 4 * x + k)
      = draw_gradient stride w h mode vertical b2 (y * stride + 4 * x + k) := by
  cases mode <;>
    · unfold draw_gradient
      exact paintSub_covers0 _ _ _ _ _ _ _ hx hy hk _ _

lemma draw_checkerboard_covers (stride w h cell x y k : Nat) (hx : x < w) (hy : y < h)
    (hk : k < 4) (b1 b2 : Buf) :
    draw_checkerboard stride w h cell b1 (y * stride + 4 * x + k)
      = draw_checkerboard stride w h cell b2 (y * stride + 4 * x + k) := by
  unfold draw_checkerboard
  exact paintSub_covers0 _ _ _ _ _ _ _ hx hy hk _ _

lemma draw_motion_bar_covers (stride w h x_pos bar_w x y k : Nat) (hx : x < w)
    (hy : y < h) (hk : k < 4) (b1 b2 : Buf) :
    draw_motion_bar stride w h x_pos bar_w b1 (y * stride + 4 * x + k)
      = draw_motion_bar stride w h x_pos bar_w b2 (y * stride + 4 * x + k) := by
  unfold draw_motion_bar
  exact paintSub_eqAt _ _ _ _ _ _ _ _ _ (fill_rgb_covers _ _ _ _ _ _ _ _ _ hx hy hk _ _)

lemma draw_patches_covers (stride w h x y k : Nat) (hx : x < w) (hy : y < h)
    (hk : k < 4) (b1 b2 : Buf) :
    draw_patches stride w h b1 (y * stride + 4 * x + k)
      = draw_patches stride w h b2 (y * stride + 4 * x + k) := by
  unfold draw_patches
  exact patchesBottom_eqAt _ _ _ _ _ _ _ _ _
    (patchesTop_eqAt _ _ _ _ _ _ _
      (fill_rgb_covers _ _ _ _ _ _ _ _ _ hx hy hk _ _))

lemma draw_viewing_card_covers (stride w h x y k : Nat) (hx : x < w) (hy : y < h)
    (hk : k < 4) (b1 b2 : Buf) :
    draw_viewing_card stride w h b1 (y * stride + 4 * x + k)
      = draw_viewing_card stride w h b2 (y * stride + 4 * x + k) := by
  unfold draw_viewing_card
  exact draw_crosshair_eqAt _ _ _ _ _ _ _ _ _
    (paintSub_eqAt _ _ _ _ _ _ _ _ _
      (fill_rect_eqAt _ _ _ _ _ _ _ _ _ _ _ _ _
        (fill_rect_eqAt _ _ _ _ _ _ _ _ _ _ _ _ _
          (fill_rect_eqAt _ _ _ _ _ _ _ _ _ _ _ _ _
            (paintSub_eqAt _ _ _ _ _ _ _ _ _
              (fill_rect_eqAt _ _ _ _ _ _ _ _ _ _ _ _ _
                (draw_rect_outline_eqAt _ _ _ _ _ _ _ _ _ _ _ _ _ _
                  (fill_rgb_covers _ _ _ _ _ _ _ _ _ hx hy hk _ _))))))))

lemma setFrame_front (s : Surface) (i : Nat) (f : Frame) :
    (setFrame s i f).front = s.front := by
  unfold setFrame
  split <;> rfl

lemma frameAt_setFrame_back (s : Surface) (f : Frame) :
    frameAt (setFrame s s.back f) s.back = f := by
  unfold frameAt setFrame Surface.back
  by_cases h0 : s.front = 0
  · simp [h0]
  · have hb : 1 - s.front = 0 := by omega
    simp [hb]

lemma frameAt_setFrame_front (s : Surface) (f : Frame) :
    frameAt (setFrame s s.back f) s.front = frameAt s s.front := by
  unfold frameAt setFrame Surface.back
  by_cases h0 : s.front = 0
  · simp [h0]
  · have hb : 1 - s.front = 0 := by omega
    simp [hb, h0]

lemma submitPhase_ok (sd : Bool) (sl : Nat) (stg : Buf) (s : Surface) (nd : Bool)
    (hsl : (frameAt s s.back).stride * (frameAt s s.back).disp_h ≤ sl) :
    ∃ out, submitPhase sd sl stg s nd = .ok out := by
  unfold submitPhase
  by_cases hg : (sd && !s.is_flipping) = true
  · rw [if_pos hg]
    have hf : s.is_flipping = false := by
      cases hfi : s.is_flipping
      · rfl
      · rw [hfi] at hg
        simp at hg
    unfold write_to_back
    rw [if_pos hsl]
    unfold flip
    dsimp only
    rw [setFrame_is_flipping, hf]
    exact ⟨_, rfl⟩
  · rw [if_neg hg]
    exact ⟨(s, nd), rfl⟩

lemma backFrame_bound (s0 s : Surface) (sl : Nat)
    (hwf : wellFormed s0) (hfr : s.frames = s0.frames)
    (hsl : sl = s0.disp_h * s0.stride) :
    (frameAt s s.back).stride * (frameAt s s.back).disp_h ≤ sl := by
  obtain ⟨h1, h2, h3, h4⟩ := hwf
  unfold frameAt
  by_cases hb : s.back = 0
  · rw [if_pos hb, hfr, h1, h3, hsl]
    exact le_of_eq (Nat.mul_comm _ _)
  · rw [if_neg hb, hfr, h2, h4, hsl]
    exact le_of_eq (Nat.mul_comm _ _)

/-- C1: from an idle surface, `flip` succeeds and marks pending; a
second `flip` without an intervening completion event fails with the
pending error; absorbing exactly one completion event while the flip is
pending swaps front/back and clears pending, after which `flip`
succeeds again. -/
theorem flip_swap_invariant (s : Surface) (h : s.is_flipping = false) :
    flip s = .ok { s with is_flipping := true }
    ∧ flip { s with is_flipping := true } = .error "flip already pending"
    ∧ handle_drm_events [DrmEvent.pageFlip] { s with is_flipping := true }
        = ({ s with front := 1 - s.front, is_flipping := false }, true)
    ∧ flip { s with front := 1 - s.front, is_flipping := false }
        = .ok { s with front := 1 - s.front, is_flipping := true } := by
  refine ⟨?_, ?_, ?_, ?_⟩
  · simp [flip, h]
  · simp [flip]
  · simp [handle_drm_events]
  · simp [flip]

theorem flip_swap_invariant_witness :
    surfW.is_flipping = false
    ∧ (flip surfW = .ok { surfW with is_flipping := true }
      ∧ flip { surfW with is_flipping := true } = .error "flip already pending"
      ∧ handle_drm_events [DrmEvent.pageFlip] { surfW with is_flipping := true }
          = ({ surfW with front := 1 - surfW.front, is_flipping := false }, true)
      ∧ flip { surfW with front := 1 - surfW.front, is_flipping := false }
          = .ok { surfW with front := 1 - surfW.front, is_flipping := true }) :=
  ⟨rfl, flip_swap_invariant surfW rfl⟩

/-- C3: `handle_drm_events` drains the queued event list in one call;
when a flip is pending and a page-flip completion is among the drained
events it swaps the front/back designation and clears pending, and its
boolean result is `true` exactly when at least one completion was
absorbed. -/
theorem absorb_completion_events_spec (evs : List DrmEvent) (s : Surface) :
    handle_drm_events evs s =
      (if s.is_flipping ∧ DrmEvent.pageFlip ∈ evs
       then ({ s with front := 1 - s.front, is_flipping := false }, true)
       else (s, false))
    ∧ ((handle_drm_events evs s).2 = true ↔
        (s.is_flipping = true ∧ DrmEvent.pageFlip ∈ evs)) := by
  refine ⟨handle_eq evs s, ?_⟩
  rw [handle_eq]
  split_ifs with hc
  · simpa using hc
  · simpa using hc

/-- C4 (code bug): the script has 20 steps; with the cursor on the last
step (index 19), `next_step` increments the cursor to 20, the
end-of-script guard `20 > 20` is false, and `apply_current_step`
indexes `script[20]` out of bounds — the source panics (modelled as
`none`) instead of signalling end. -/
theorem next_step_panics_on_last_step :
    create_script.length = 20
    ∧ appAtLast.script_idx = create_script.length - 1
    ∧ next_step appAtLast = none := by
  refine ⟨by decide, by decide, ?_⟩
  rfl

/-- C5: `write_to_back` fails with the buffer-too-small error exactly
when the staging buffer cannot supply `stride × height` bytes;
otherwise it copies `height` rows of `stride` bytes each from the
staging buffer into the back frame (the mapped region reads back the
staging bytes — in particular all 0xFF for an all-0xFF staging buffer),
leaves the front frame untouched and changes neither the front index
nor the pending flag. -/
theorem write_to_back_spec (s : Surface) (srcLen : Nat) (src : Buf) :
    (write_to_back s srcLen src = .error "source buffer too small"
      ↔ srcLen < (frameAt s s.back).stride * (frameAt s s.back).disp_h)
    ∧ (∀ s2, write_to_back s srcLen src = .ok s2 →
        (∀ i, i < (frameAt s s.back).stride * (frameAt s s.back).disp_h →
          (frameAt s2 s.back).buf i = src i)
        ∧ (∀ i, (frameAt s2 s.front).buf i = (frameAt s s.front).buf i)
        ∧ s2.front = s.front ∧ s2.is_flipping = s.is_flipping
        ∧ ((∀ i, i < (frameAt s s.back).stride * (frameAt s s.back).disp_h → src i = 255) →
            ∀ i, i < (frameAt s s.back).stride * (frameAt s s.back).disp_h →
              (frameAt s2 s.back).buf i = 255)) := by
  constructor
  · unfold write_to_back
    dsimp only
    split_ifs with hge
    · constructor
      · intro h
        exact absurd h (by simp)
      · intro h
        exact absurd h (by omega)
    · constructor
      · intro _
        omega
      · intro _
        rfl
  · intro s2 hok
    unfold write_to_back at hok
    dsimp only at hok
    split_ifs at hok with hge
    · cases hok
      refine ⟨?_, ?_, ?_, ?_, ?_⟩
      · intro i hi
        rw [frameAt_setFrame_back]
        dsimp only
        rw [copyRows_apply, if_pos (by rw [Nat.mul_comm] at hi; exact hi)]
      · intro i
        rw [frameAt_setFrame_front]
      · exact setFrame_front _ _ _
      · exact setFrame_is_flipping _ _ _
      · intro hff i hi
        rw [frameAt_setFrame_back]
        dsimp only
        rw [copyRows_apply, if_pos (by rw [Nat.mul_comm] at hi; exact hi)]
        exact hff i hi

theorem write_to_back_spec_witness :
    write_to_back surfW 8 ffBuf = .ok surfW2
    ∧ (frameAt surfW2 surfW.back).buf 5 = 255 :=
  ⟨rfl, ((write_to_back_spec surfW 8 ffBuf).2 surfW2 rfl).2.2.2.2
    (fun _ _ => rfl) 5 (by decide)⟩

/-- C6: iterating the main loop's `Motion` redraw tick with width 320,
speed 8, direction `+1` from position 0 keeps the bar position equal to
`8 * n mod 320`; in particular after 40 redraw ticks the bar is back at
`(0 + 8 * 40) mod 320 = 0`. -/
theorem motion_bar_wraps :
    (∀ n : Nat, motionIterN n = ((8 * n % 320 : Nat) : Int))
    ∧ motionIterN 40 = 0
    ∧ motionIterN 40 = (((0 + 8 * 40) % 320 : Nat) : Int) := by
  have key : ∀ n : Nat, motionIterN n = ((8 * n % 320 : Nat) : Int) := by
    intro n
    induction n with
    | zero => simp [motionIterN]
    | succ n ih =>
      unfold motionIterN motionTick
      rw [ih]
      dsimp only
      split_ifs with h1 h2 <;> omega
  refine ⟨key, ?_, ?_⟩
  · simpa using key 40
  · simpa using key 40

/-- C8: `previous_step` moves the cursor backward one step modulo the
script length for every cursor position, and from step 0 it wraps to
the last step. -/
theorem previous_step_wraps (st : AppState) (hlen : 0 < st.script.length) :
    ∃ st2, previous_step st = some st2
      ∧ st2.script_idx = (st.script_idx + st.script.length - 1) % st.script.length
      ∧ (st.script_idx = 0 → st2.script_idx = st.script.length - 1) := by
  have hjlt : (st.script_idx + st.script.length - 1) % st.script.length
      < st.script.length := Nat.mod_lt _ hlen
  unfold previous_step apply_current_step current_step
  rw [List.get?_eq_get hjlt]
  refine ⟨_, rfl, rfl, ?_⟩
  intro h0
  dsimp only
  rw [h0]
  have hlt : 0 + st.script.length - 1 < st.script.length := by omega
  rw [Nat.mod_eq_of_lt hlt]
  omega

theorem previous_step_wraps_witness :
    0 < appFirst.script.length
    ∧ ∃ st2, previous_step appFirst = some st2
      ∧ st2.script_idx
          = (appFirst.script_idx + appFirst.script.length - 1) % appFirst.script.length
      ∧ (appFirst.script_idx = 0 → st2.script_idx = appFirst.script.length - 1) :=
  ⟨by decide, previous_step_wraps appFirst (by decide)⟩

/-- C10: a page-flip completion event received while no flip is pending
leaves the surface state entirely unchanged and reports that no
completion was absorbed. -/
theorem spurious_completion_ignored (evs : List DrmEvent) (s : Surface)
    (h : s.is_flipping = false) :
    handle_drm_events evs s = (s, false) := by
  rw [handle_eq]
  simp [h]

theorem spurious_completion_ignored_witness :
    surfW.is_flipping = false
    ∧ handle_drm_events [DrmEvent.pageFlip, DrmEvent.other] surfW = (surfW, false) :=
  ⟨rfl, spurious_completion_ignored _ surfW rfl⟩

lemma gradMod (L t : Nat) (ht : t < L) : t * 255 / max (L - 1) 1 % 256 = gradVal L t := by
  have hle := gradVal_le L t ht
  unfold gradVal at hle ⊢
  exact Nat.mod_eq_of_lt (lt_of_le_of_lt hle (by norm_num))

/-- C2: in every main-loop iteration, a flip is requested only when no
flip is pending (the submission guard checks the pending flag right
before `flip`), so the iteration can never propagate the
flip-already-pending error; and when a flip is pending the submission
phase leaves the surface untouched and keeps the redraw-needed flag as
it is — the frame is neither queued nor dropped. -/
theorem mainloop_flip_guard (inp : IterInput) (ls : LoopState)
    (hwf : wellFormed ls.surface)
    (hstage : ls.stageLen = ls.surface.disp_h * ls.surface.stride) :
    (∀ e, loopIter inp ls ≠ some (.error e))
    ∧ (∀ (sd : Bool) (sl : Nat) (stg : Buf) (s : Surface) (nd : Bool),
        s.is_flipping = true → submitPhase sd sl stg s nd = .ok (s, nd)) := by
  constructor
  · intro e
    unfold loopIter
    dsimp only
    set s : Surface := if inp.drm_ready then (handle_drm_events inp.drmEvents ls.surface).1
      else ls.surface with hsdef
    have hfr : s.frames = ls.surface.frames := by
      rw [hsdef]
      by_cases hdr : inp.drm_ready
      · rw [if_pos hdr]
        exact (handle_fst_frames _ _).1
      · rw [if_neg hdr]
    have hbound := backFrame_bound ls.surface s ls.stageLen hwf hfr hstage
    cases hpk : processKeys inp.keys ls.app ls.pause ls.need_redraw with
    | none => simp [hpk]
    | some res =>
      obtain ⟨q, app, pause, need⟩ := res
      cases q with
      | true => simp [hpk]
      | false =>
        by_cases hp : pause
        · simp [hpk, hp]
        · obtain ⟨out, hsub⟩ := submitPhase_ok (need || isMotion app.pattern) ls.stageLen
            (if (need || isMotion app.pattern)
              then renderPattern app s.stride s.disp_w s.disp_h ls.stage
              else (app, ls.stage)).2 s need hbound
          obtain ⟨s3, nd3⟩ := out
          simp only [Bool.or_eq_true] at hsub
          simp [hpk, hp, hsub]
  · intro sd sl stg s nd hf
    simp [submitPhase, hf]

theorem mainloop_flip_guard_witness :
    wellFormed lsW.surface
    ∧ lsW.stageLen = lsW.surface.disp_h * lsW.surface.stride
    ∧ ((∀ e, loopIter inpW lsW ≠ some (.error e))
      ∧ (∀ (sd : Bool) (sl : Nat) (stg : Buf) (s : Surface) (nd : Bool),
          s.is_flipping = true → submitPhase sd sl stg s nd = .ok (s, nd))) :=
  ⟨⟨rfl, rfl, rfl, rfl⟩, rfl, mainloop_flip_guard inpW lsW ⟨rfl, rfl, rfl, rfl⟩ rfl⟩

/-- C7: the gradient ramp value `(p * 255) / max (L - 1, 1)` is
monotone non-decreasing in the position, is 0 at position 0 and 255 at
position `L - 1` for every axis length `L > 1`; and in every channel
mode and on both axes, the rendered buffer carries exactly this value
on the active channel's byte of each pixel. -/
theorem gradient_ramp (L p q stride w h x y : Nat) (mode : GradMode) (vertical : Bool)
    (buf : Buf) (hL : 1 < L) (hpq : p ≤ q) (hx : x < w) (hy : y < h)
    (hstride : 4 * w ≤ stride) :
    gradVal L p ≤ gradVal L q
    ∧ gradVal L 0 = 0
    ∧ gradVal L (L - 1) = 255
    ∧ draw_gradient stride w h mode vertical buf (y * stride + 4 * x + gradByteOff mode)
      = gradVal (if vertical then h else w) (if vertical then y else x) := by
  refine ⟨?_, ?_, ?_, ?_⟩
  · exact Nat.div_le_div_right (Nat.mul_le_mul_right 255 hpq)
  · simp [gradVal]
  · unfold gradVal
    rw [max_eq_left (by omega)]
    exact Nat.mul_div_cancel_left 255 (by omega)
  · cases mode with
    | Luma =>
      cases vertical with
      | false =>
        simp only [draw_gradient, gradByteOff]
        rw [paintSub_val stride _ w h x y 1 hx hy (by omega) hstride]
        simp [rgbByte, gradMod w x hx]
      | true =>
        simp only [draw_gradient, gradByteOff]
        rw [paintSub_val stride _ w h x y 1 hx hy (by omega) hstride]
        simp [rgbByte, gradMod h y hy]
    | Red =>
      cases vertical with
      | false =>
        simp only [draw_gradient, gradByteOff, gradChannel]
        rw [paintSub_val stride _ w h x y 2 hx hy (by omega) hstride]
        simp [rgbByte, gradMod w x hx]
      | true =>
        simp only [draw_gradient, gradByteOff, gradChannel]
        rw [paintSub_val stride _ w h x y 2 hx hy (by omega) hstride]
        simp [rgbByte, gradMod h y hy]
    | Green =>
      cases vertical with
      | false =>
        simp only [draw_gradient, gradByteOff, gradChannel]
        rw [paintSub_val stride _ w h x y 1 hx hy (by omega) hstride]
        simp [rgbByte, gradMod w x hx]
      | true =>
        simp only [draw_gradient, gradByteOff, gradChannel]
        rw [paintSub_val stride _ w h x y 1 hx hy (by omega) hstride]
        simp [rgbByte, gradMod h y hy]
    | Blue =>
      cases vertical with
      | false =>
        simp only [draw_gradient, gradByteOff, gradChannel]
        rw [paintSub_val stride _ w h x y 0 hx hy (by omega) hstride]
        simp [rgbByte, gradMod w x hx]
      | true =>
        simp only [draw_gradient, gradByteOff, gradChannel]
        rw [paintSub_val stride _ w h x y 0 hx hy (by omega) hstride]
        simp [rgbByte, gradMod h y hy]

theorem gradient_ramp_witness :
    gradVal 2 0 ≤ gradVal 2 1
    ∧ gradVal 2 0 = 0
    ∧ gradVal 2 (2 - 1) = 255
    ∧ draw_gradient 8 2 1 GradMode.Luma false zeroBuf (0 * 8 + 4 * 1 + gradByteOff .Luma)
      = gradVal (if false then 1 else 2) (if false then 0 else 1) :=
  gradient_ramp 2 0 1 8 2 1 1 0 GradMode.Luma false zeroBuf (by decide) (by decide)
    (by decide) (by decide) (by decide)

/-- C9: for every pattern kind, the main loop's render dispatch
overwrites every byte of every pixel of the `w × h` target rectangle:
the rendered contents at in-bounds pixels are identical for any two
prior buffer contents, so no pixel within bounds retains a prior-frame
value.  (The `solid_idx` and `viewingFits` bounds delimit the inputs on
which the source itself would not panic, keeping the total model
exact.) -/
theorem render_overwrites (app : AppState) (stride w h x y k : Nat) (b1 b2 : Buf)
    (hx : x < w) (hy : y < h) (hk : k < 4)
    (_hsolid : app.solid_idx < SOLIDS.length) (_hfits : viewingFits w h) :
    (renderPattern app stride w h b1).2 (y * stride + 4 * x + k)
      = (renderPattern app stride w h b2).2 (y * stride + 4 * x + k) := by
  cases happ : app.pattern with
  | Solid =>
    simp only [renderPattern, happ]
    exact fill_rgb_covers _ _ _ _ _ _ _ _ _ hx hy hk _ _
  | Gradient =>
    simp only [renderPattern, happ]
    exact draw_gradient_covers _ _ _ _ _ _ _ _ hx hy hk _ _
  | Checker =>
    simp only [renderPattern, happ]
    exact draw_checkerboard_covers _ _ _ _ _ _ _ hx hy hk _ _
  | Motion =>
    simp only [renderPattern, happ]
    exact draw_motion_bar_covers _ _ _ _ _ _ _ _ hx hy hk _ _
  | Patches =>
    simp only [renderPattern, happ]
    exact draw_patches_covers _ _ _ _ _ _ hx hy hk _ _
  | Viewing =>
    simp only [renderPattern, happ]
    exact draw_viewing_card_covers _ _ _ _ _ _ hx hy hk _ _

theorem render_overwrites_witness :
    99 < 100 ∧ 0 < 4 ∧ appW.solid_idx < SOLIDS.length ∧ viewingFits 100 100
    ∧ (renderPattern appW 400 100 100 zeroBuf).2 (99 * 400 + 4 * 99 + 0)
      = (renderPattern appW 400 100 100 ffBuf).2 (99 * 400 + 4 * 99 + 0) :=
  ⟨by decide, by decide, by decide, by decide,
    render_overwrites appW 400 100 100 99 99 0 zeroBuf ffBuf (by decide) (by decide)
      (by decide) (by decide) (by decide)⟩

end ScreenTest
